import Mathlib

/-!
Verification of the `ez-tools` secrets/deploy orchestrator
(`ez_infra_tools/secrets/sops_age.py` and `ez_infra_tools/k8s/deploy.py`).

The Python code is shallowly embedded: the filesystem is an explicit,
finite map from path strings to file entries, the working directory and a
write log are threaded through as state, and every external subprocess
(age-keygen, sops, kubectl, helm) is an oracle value supplied as input.
Uncaught Python exceptions are modelled as an explicit `raise` result.
-/

/-! ## Embedding of the source (definitions) -/

/-- Single-quote character, used when building shell-style output lines. -/
def sqm : String := ⟨[Char.ofNat 39]⟩

/-- Split a character list at every occurrence of `sep`, keeping empty
chunks — the semantics of Python `str.split(sep)` with an explicit
separator (and of `String.splitOn` for a one-character separator). -/
def splitCh (sep : Char) : List Char → List (List Char)
  | [] => [[]]
  | c :: rest =>
    match splitCh sep rest with
    | [] => [[]]
    | g :: gs => if c = sep then [] :: g :: gs else (c :: g) :: gs

/-- Python `s.split(sep)` for a one-character separator. -/
def pySplit (sep : Char) (s : String) : List String :=
  (splitCh sep s.data).map String.mk

/-- Python `s.startswith(pre)`. -/
def pyStartsWith (s pre : String) : Bool := pre.data.isPrefixOf s.data

/-- Python `s.endswith(suff)`. -/
def pyEndsWith (s suff : String) : Bool := suff.data.isSuffixOf s.data

/-- Python `s.strip()` (over the ASCII whitespace the inputs use). -/
def pyStrip (s : String) : String :=
  ⟨((s.data.dropWhile Char.isWhitespace).reverse.dropWhile Char.isWhitespace).reverse⟩

/-- Python `s.upper()` (over the ASCII inputs used here). -/
def pyUpper (s : String) : String := ⟨s.data.map Char.toUpper⟩

/-- `pathlib`-style path join: `Path(a) / b`. -/
def pathJoin (a b : String) : String := a ++ "/" ++ b

/-- `Path(p).parent`: drop the last `/`-separated component. -/
def parentOf (p : String) : String :=
  String.intercalate "/" ((p.splitOn "/").dropLast)

/-- Python truthiness of an optional string (`if x:`): `None` and `""` are falsy. -/
def optTruthy : Option String → Bool
  | some s => s != ""
  | none => false

/-- Python `str.splitlines` for `\n`-separated text: like `splitOn "\n"` but a
trailing newline does not yield a final empty line, and `"" ↦ []`. -/
def pySplitlines (s : String) : List String :=
  if s = "" then []
  else
    let parts := pySplit (Char.ofNat 10) s
    if pyEndsWith s "\n" then parts.dropLast else parts

/-- Scan `content` line by line (Python `str.split('\n')` / file iteration);
on the first line starting with `marker`, return `line.split(":")[1].strip()`. -/
def markerLookup (marker content : String) : Option String :=
  ((pySplit (Char.ofNat 10) content).find? (fun l => pyStartsWith l marker)).map
    (fun line => pyStrip ((pySplit (Char.ofNat 58) line).getD 1 ""))

/-- One step of Python `dict(items)` construction: inserting an existing key
keeps its original position but replaces the value. -/
def pyDictInsert (acc : List (String × String)) (k v : String) : List (String × String) :=
  if acc.any (·.1 == k) then acc.map (fun p => if p.1 == k then (k, v) else p)
  else acc ++ [(k, v)]

/-- Python `dict(items)` applied to an association list. -/
def pyDict (l : List (String × String)) : List (String × String) :=
  l.foldl (fun acc p => pyDictInsert acc p.1 p.2) []

/-- A file on disk: its content plus whether opening it for read succeeds
(an unreadable file models `open` raising). -/
structure FileEnt where
  content : String
  readable : Bool
deriving DecidableEq, Repr

/-- Finite-map filesystem: files keyed by absolute path, plus a set of
directories (only queried for existence; creation is idempotent). -/
structure FS where
  files : List (String × FileEnt)
  dirs : List String
deriving DecidableEq, Repr

def FS.existsFile (fs : FS) (p : String) : Bool := fs.files.any (·.1 == p)

def FS.existsDir (fs : FS) (p : String) : Bool := fs.dirs.contains p

/-- `open(p).read()`: `none` models the read raising (missing or unreadable). -/
def FS.read (fs : FS) (p : String) : Option String :=
  match fs.files.find? (·.1 == p) with
  | some e => if e.2.readable then some e.2.content else none
  | none => none

def FS.writeF (fs : FS) (p c : String) : FS :=
  { fs with files := (p, ⟨c, true⟩) :: fs.files.filter (fun e => !(e.1 == p)) }

def FS.unlinkF (fs : FS) (p : String) : FS :=
  { fs with files := fs.files.filter (fun e => !(e.1 == p)) }

def FS.mkdirF (fs : FS) (p : String) : FS :=
  if fs.dirs.contains p then fs else { fs with dirs := p :: fs.dirs }

/-- Process state: current working directory, filesystem, and a log of the
paths of all file writes performed (in order). -/
structure Sys where
  cwd : String
  fs : FS
  log : List String
deriving DecidableEq, Repr

def Sys.writeFile (s : Sys) (p c : String) : Sys :=
  { s with fs := s.fs.writeF p c, log := s.log ++ [p] }

def Sys.unlinkFile (s : Sys) (p : String) : Sys :=
  { s with fs := s.fs.unlinkF p }

def Sys.mkdir (s : Sys) (p : String) : Sys :=
  { s with fs := s.fs.mkdirF p }

/-- `get_project_root`: cwd, or cwd/project when a project is given. -/
def get_project_root (cwd : String) (project : Option String) : String :=
  match project with
  | some p => pathJoin cwd p
  | none => cwd

/-- `get_secrets_dir`. -/
def get_secrets_dir (cwd : String) (project : Option String) : String :=
  pathJoin (get_project_root cwd project) "secrets"

/-- `get_age_key_path`. -/
def get_age_key_path (cwd : String) (project : Option String) : String :=
  pathJoin (get_secrets_dir cwd project) "age-key.txt"

/-- `get_secrets_path`. -/
def get_secrets_path (cwd : String) (project : Option String) : String :=
  pathJoin (get_secrets_dir cwd project) "secrets.yaml"

/-- Result of a successful `age-keygen -o <path>` run: the text written to the
key file and the tool's stderr (which normally carries `Public key: ...`). -/
structure KeygenOut where
  stderrOut : String
  fileContent : String
deriving DecidableEq, Repr

/-- Marker line prefix searched for inside a key file. -/
def pk_marker_file : String := "# public key:"

/-- Marker line prefix searched for in `age-keygen` stderr. -/
def pk_marker_stderr : String := "Public key:"

/-- Result of `generate_age_key`: the returned public key (`None` on failure),
the final state, and whether the external `age-keygen` primitive was run. -/
structure GenResult where
  pk : Option String
  sys : Sys
  invoked : Bool
deriving DecidableEq, Repr

/-- Lines 117-155 of `sops_age.py`: mkdir the secrets dir, run `age-keygen`,
parse the public key from its stderr, falling back to the fresh file. -/
def generate_fresh (keygen : Except String KeygenOut) (sys : Sys)
    (secrets_dir age_key_file : String) : GenResult :=
  let sys1 := sys.mkdir secrets_dir
  match keygen with
  | .error _ => ⟨none, sys1, true⟩
  | .ok ko =>
    let sys2 := sys1.writeFile age_key_file ko.fileContent
    match markerLookup pk_marker_stderr ko.stderrOut with
    | some pk => ⟨some pk, sys2, true⟩
    | none =>
      match markerLookup pk_marker_file ko.fileContent with
      | some pk => ⟨some pk, sys2, true⟩
      | none => ⟨none, sys2, true⟩

/-- `generate_age_key` (sops_age.py lines 96-155). When the key file exists:
an unreadable file returns `None`; a readable file whose first
`# public key:` line parses returns that key; a readable file WITHOUT the
marker line falls through to the generation code below the `if` block. -/
def generate_age_key (keygen : Except String KeygenOut) (sys : Sys)
    (project : Option String) : GenResult :=
  let age_key_file := get_age_key_path sys.cwd project
  let secrets_dir := get_secrets_dir sys.cwd project
  if sys.fs.existsFile age_key_file then
    match sys.fs.read age_key_file with
    | none => ⟨none, sys, false⟩
    | some content =>
      match markerLookup pk_marker_file content with
      | some pk => ⟨some pk, sys, false⟩
      | none => generate_fresh keygen sys secrets_dir age_key_file
  else
    generate_fresh keygen sys secrets_dir age_key_file

/-- Content written to `.sops.yaml` (sops_age.py lines 171-176). -/
def sops_config_content (public_key : String) : String :=
  "keys:\n - &age_key " ++ public_key ++
  "\ncreation_rules:\n - path_regex: secrets/.*\\.yaml$\n   age: *age_key\n"

/-- `create_sops_config`: no overwrite when the policy file exists. -/
def create_sops_config (public_key : String) (sys : Sys)
    (project : Option String) : Bool × Sys :=
  let sops_config_path := pathJoin (get_project_root sys.cwd project) ".sops.yaml"
  if sys.fs.existsFile sops_config_path then (true, sys)
  else (true, sys.writeFile sops_config_path (sops_config_content public_key))

/-- Initial plaintext scaffold (sops_age.py lines 204-212). -/
def initial_content : String :=
  "# Add your secrets here in YAML format\n# Example structure below:\ndatabase:\n" ++
  "  username: \"\"\n  password: \"\"\napi:\n  key: \"\"\n  secret: \"\"\n"

/-- `create_initial_secrets_file` (sops_age.py lines 188-249). The external
`sops --encrypt --in-place` run is the `encrypt` oracle: `ok ct` rewrites the
file to ciphertext `ct`; `error` is `CalledProcessError`, whose handler
unlinks the partially written plaintext file before returning `False`. -/
def create_initial_secrets_file (encrypt : Except String String) (sys : Sys)
    (project : Option String) : Bool × Sys :=
  let secrets_file := get_secrets_path sys.cwd project
  if sys.fs.existsFile secrets_file then (true, sys)
  else
    let sys1 := sys.mkdir (get_secrets_dir sys.cwd project)
    let sys2 := sys1.writeFile secrets_file initial_content
    match encrypt with
    | .ok ct => (true, sys2.writeFile secrets_file ct)
    | .error _ =>
      let sys3 := if sys2.fs.existsFile secrets_file
                  then sys2.unlinkFile secrets_file else sys2
      (false, sys3)

/-- External-world oracle for one `setup_secrets` run. -/
structure SetupWorld where
  sopsProbe : Bool
  ageProbe : Bool
  keygen : Except String KeygenOut
  encrypt : Except String String
deriving Repr

/-- Result of `setup_secrets`: overall success, the public key obtained from
`generate_age_key` (observable for the idempotence property), final state. -/
structure SetupResult where
  ok : Bool
  pk : Option String
  sys : Sys
deriving DecidableEq, Repr

/-- `check_dependencies`: both `sops --version` and `age --version` succeed. -/
def check_dependencies (w : SetupWorld) : Bool := w.sopsProbe && w.ageProbe

/-- `setup_secrets` (sops_age.py lines 252-289): dependency check, project
dir creation, key generation, policy creation, initial secrets creation.
`if not public_key:` uses Python truthiness, so an empty key also fails. -/
def setup_secrets (w : SetupWorld) (sys : Sys) (project : Option String) : SetupResult :=
  if !(check_dependencies w) then ⟨false, none, sys⟩
  else
    let sys1 := match project with
      | some _ => sys.mkdir (get_project_root sys.cwd project)
      | none => sys
    let gr := generate_age_key w.keygen sys1 project
    if !(optTruthy gr.pk) then ⟨false, gr.pk, gr.sys⟩
    else
      let r2 := create_sops_config (gr.pk.getD "") gr.sys project
      if !r2.1 then ⟨false, gr.pk, r2.2⟩
      else
        let r3 := create_initial_secrets_file w.encrypt r2.2 project
        if !r3.1 then ⟨false, gr.pk, r3.2⟩
        else ⟨true, gr.pk, r3.2⟩

/-- An ordered YAML mapping with string scalars at the leaves, as produced by
`yaml.safe_load` on a secrets document (insertion order preserved, like a
Python dict). `strEntry k v rest` is a scalar entry; `mapEntry k sub rest`
is a nested mapping. -/
inductive YDoc where
  | nil : YDoc
  | strEntry (k v : String) (rest : YDoc) : YDoc
  | mapEntry (k : String) (sub rest : YDoc) : YDoc
deriving DecidableEq, Repr

/-- Top-level membership/lookup, Python `key in data` / `data[key]`. -/
def ylookup (key : String) : YDoc → Option (String ⊕ YDoc)
  | .nil => none
  | .strEntry k v rest => if k == key then some (.inl v) else ylookup key rest
  | .mapEntry k sub rest => if k == key then some (.inr sub) else ylookup key rest

/-- Python `str()` of a dict's entries (used when `click.echo` prints a
nested mapping), without the surrounding braces. -/
def pyDictReprEntries : YDoc → String
  | .nil => ""
  | .strEntry k v rest =>
      sqm ++ k ++ sqm ++ ": " ++ sqm ++ v ++ sqm ++
      (match rest with | .nil => "" | _ => ", ") ++ pyDictReprEntries rest
  | .mapEntry k sub rest =>
      sqm ++ k ++ sqm ++ ": \x7b" ++ pyDictReprEntries sub ++ "\x7d" ++
      (match rest with | .nil => "" | _ => ", ") ++ pyDictReprEntries rest

/-- Python `str()` of a looked-up value as `click.echo` renders it. -/
def pyStr : String ⊕ YDoc → String
  | .inl s => s
  | .inr d => "\x7b" ++ pyDictReprEntries d ++ "\x7d"

/-- The `items` list built by `flatten_dict`'s loop (sops_age.py lines
386-394): nested keys joined by `_` and upper-cased; each recursive call
returns `dict(items)`, so nested chunks are deduplicated before extending. -/
def flatten_items : YDoc → String → List (String × String)
  | .nil, _ => []
  | .strEntry k v rest, parent =>
      let nk := if parent = "" then k else parent ++ "_" ++ k
      (pyUpper nk, v) :: flatten_items rest parent
  | .mapEntry k sub rest, parent =>
      let nk := if parent = "" then k else parent ++ "_" ++ k
      pyDict (flatten_items sub nk) ++ flatten_items rest parent

/-- `flatten_dict(d, parent_key)`: `dict(items)` over the loop's list. -/
def flatten_dict (d : YDoc) (parent : String) : List (String × String) :=
  pyDict (flatten_items d parent)

/-- External-world oracle for one decrypt-based operation: the
`sops --decrypt` run, the `yaml.safe_load` of its stdout, the separate
`sops --decrypt --output-type json` run, and the `yaml.dump` serialization
of the parsed data. `error` on the sops runs is `CalledProcessError`; `error`
on `parseRes` is `yaml.safe_load` raising. -/
structure SopsWorld where
  decryptRes : Except String String
  parseRes : Except String YDoc
  jsonRes : Except String String
  dumped : String
deriving Repr

/-- `decrypt_secrets` (sops_age.py lines 332-418). Returns the success flag
and the list of strings echoed to stdout. In `yaml` and `json` modes the
`key` argument is never consulted; only the `env` branch checks
`if key:` (truthiness) and then top-level membership `key in data`. -/
def decrypt_secrets (w : SopsWorld) (sys : Sys) (output_format : String)
    (key : Option String) (project : Option String) : Bool × List String :=
  let secrets_file := get_secrets_path sys.cwd project
  let age_key_file := get_age_key_path sys.cwd project
  if !(sys.fs.existsFile secrets_file) then (false, [])
  else if !(sys.fs.existsFile age_key_file) then (false, [])
  else
    match w.decryptRes with
    | .error _ => (false, [])
    | .ok decrypted_content =>
      if output_format = "yaml" then (true, [decrypted_content])
      else if output_format = "json" then
        match w.jsonRes with
        | .error _ => (false, [])
        | .ok out => (true, [out])
      else if output_format = "env" then
        match w.parseRes with
        | .error _ => (false, [])
        | .ok data =>
          if optTruthy key then
            match ylookup (key.getD "") data with
            | some v => (true, [pyStr v])
            | none => (false, [])
          else
            (true, (flatten_dict data "").map
              (fun kv => "export " ++ kv.1 ++ "=" ++ sqm ++ kv.2 ++ sqm))
      else (true, [])

/-- Output path computed at sops_age.py lines 443-447: derived from the
project alone — the function has no environment parameter. -/
def temp_out_path (project : Option String) : String :=
  match project with
  | some p => "/tmp/" ++ p ++ "-secret-values.yaml"
  | none => "/tmp/secret-values.yaml"

/-- Content written by `make_temp_secrets_yaml`: a single top-level
`secrets:` key with every line of the serialized document indented 4 spaces. -/
def wrapped_secrets (dumped : String) : String :=
  "secrets:\n" ++ String.join ((pySplitlines dumped).map (fun l => "    " ++ l ++ "\n"))

/-- `make_temp_secrets_yaml` (sops_age.py lines 421-492): decrypt, parse,
write the wrapped document to the temp path. Parse failure is caught by the
generic handler and returns `False` before the output file is opened. -/
def make_temp_secrets_yaml (w : SopsWorld) (sys : Sys)
    (project : Option String) : Bool × Sys :=
  let secrets_file := get_secrets_path sys.cwd project
  let age_key_file := get_age_key_path sys.cwd project
  if !(sys.fs.existsFile secrets_file) then (false, sys)
  else if !(sys.fs.existsFile age_key_file) then (false, sys)
  else
    let output_file := temp_out_path project
    match w.decryptRes with
    | .error _ => (false, sys)
    | .ok _ =>
      match w.parseRes with
      | .error _ => (false, sys)
      | .ok _ => (true, sys.writeFile output_file (wrapped_secrets w.dumped))

/-- Modelled from the spec: the ephemeral artifact path as §6 words it,
`/tmp/<project>[-<env>]-secret-values.yaml` (or the unscoped variant without
project), for comparison with `temp_out_path`, which the code computes. -/
def spec_temp_path (project environment : Option String) : String :=
  match project, environment with
  | some p, some e => "/tmp/" ++ p ++ "-" ++ e ++ "-secret-values.yaml"
  | some p, none => "/tmp/" ++ p ++ "-secret-values.yaml"
  | none, _ => "/tmp/secret-values.yaml"

/-- Result of a Python function call: a normal return or an uncaught
exception propagating to the caller. -/
inductive PyRet where
  | ret (b : Bool)
  | raise (e : String)
deriving DecidableEq, Repr

/-- Exception name for the call-site error in deploy.py line 173. -/
def typeErrorExc : String := "TypeError"

/-- Exception name for a missing external binary. -/
def fileNotFoundExc : String := "FileNotFoundError"

/-- Outcome of the `kubectl config view` namespace query. `absent` is the
binary missing (`FileNotFoundError`, which deploy.py does NOT catch). -/
inductive KubectlRes where
  | ok (stdout : String)
  | calledErr
  | absent
deriving DecidableEq, Repr

/-- Outcome of the `helm upgrade --install` run. -/
inductive HelmRes where
  | ok (stdout : String)
  | calledErr (out err : String)
  | absent
deriving DecidableEq, Repr

/-- External-world oracle for one `deploy_helm_chart` run. -/
structure DeployWorld where
  kubectl : KubectlRes
  helm : HelmRes
deriving DecidableEq, Repr

/-- Namespace resolution (deploy.py lines 121-133): an explicit namespace is
used as-is; otherwise the kubectl query's stripped stdout, with `"default"`
on empty output or `CalledProcessError`. A missing kubectl binary raises. -/
def resolve_namespace (k : KubectlRes) (nspace : Option String) : Except String String :=
  match nspace with
  | some n => .ok n
  | none =>
    match k with
    | .ok out => let t := pyStrip out; .ok (if t = "" then "default" else t)
    | .calledErr => .ok "default"
    | .absent => .error fileNotFoundExc

/-- The temp-secrets path deploy.py builds at lines 174, 201 and 220 —
note it interpolates BOTH project and environment, unlike `temp_out_path`. -/
def secrets_cleanup_path (project environment : String) : String :=
  "/tmp/" ++ project ++ "-" ++ environment ++ "-secret-values.yaml"

/-- Result of `deploy_helm_chart`: return-or-raise, final state, whether the
code reached the helm `subprocess.run`, and the `-f` value layers accumulated
in `helm_cmd` (in order). -/
structure DeployResult where
  ret : PyRet
  sys : Sys
  helmRan : Bool
  layers : List String
deriving DecidableEq, Repr

/-- Cleanup block of deploy.py lines 199-207 / 218-225: when an environment
was given, unlink the (project, environment)-derived temp file if present;
unlink errors are swallowed. -/
def cleanup_temp_secrets (sys : Sys) (project : String)
    (environment : Option String) : Sys :=
  if optTruthy environment then
    let sf := secrets_cleanup_path project (environment.getD "")
    if sys.fs.existsFile sf then sys.unlinkFile sf else sys
  else sys

/-- Helm execution and cleanup, deploy.py lines 185-231. On success and on
`CalledProcessError` the env-guarded cleanup runs; on `FileNotFoundError`
(helm binary missing) the function returns with NO cleanup. -/
def helm_exec_and_cleanup (h : HelmRes) (sys : Sys) (project : String)
    (environment : Option String) (layers : List String) : DeployResult :=
  match h with
  | .ok _ => ⟨.ret true, cleanup_temp_secrets sys project environment, true, layers⟩
  | .calledErr _ _ => ⟨.ret false, cleanup_temp_secrets sys project environment, true, layers⟩
  | .absent => ⟨.ret false, sys, true, layers⟩

/-- `deploy_helm_chart` (deploy.py lines 94-231). When the environment is
truthy, line 173 calls `sops_age.make_temp_secrets_yaml(project=project,
environment=environment)`; `make_temp_secrets_yaml` accepts only `project`,
so CPython raises `TypeError` at the call before the callee body runs. The
`finally` restores the working directory and the exception propagates: the
helm invocation and the cleanup blocks are never reached on this path. -/
def deploy_helm_chart (w : DeployWorld) (sys : Sys) (project : String)
    (environment : Option String) (nspace : Option String) : DeployResult :=
  let base_dir := pathJoin sys.cwd project
  let helm_dir := pathJoin base_dir "helm"
  if !(sys.fs.existsDir helm_dir) then ⟨.ret false, sys, false, []⟩
  else if !(sys.fs.existsFile (pathJoin helm_dir "Chart.yaml")) then
    ⟨.ret false, sys, false, []⟩
  else
    match resolve_namespace w.kubectl nspace with
    | .error e => ⟨.raise e, sys, false, []⟩
    | .ok _ns =>
      let base_values := pathJoin helm_dir "values.yaml"
      let layers0 := if sys.fs.existsFile base_values then [base_values] else []
      if optTruthy environment then
        let env_values :=
          pathJoin (pathJoin (pathJoin base_dir "environments") (environment.getD ""))
            "values.yaml"
        let layers1 := if sys.fs.existsFile env_values
                       then layers0 ++ [env_values] else layers0
        -- os.chdir(base_dir.parent); try: <call with bad keyword ⇒ TypeError>
        -- finally: os.chdir(original_dir)
        let original_dir := sys.cwd
        let sys1 := { sys with cwd := parentOf base_dir }
        let sys2 := { sys1 with cwd := original_dir }
        ⟨.raise typeErrorExc, sys2, false, layers1⟩
      else
        helm_exec_and_cleanup w.helm sys project environment layers0

/-- Concrete decrypted document `{database: {username: "u", password: "p"}}`. -/
def doc_db : YDoc :=
  .mapEntry "database" (.strEntry "username" "u" (.strEntry "password" "p" .nil)) .nil

/-- Concrete state for the decrypt/materialize witnesses: both the encrypted
store and the key file exist for project `api` under cwd `/w`. -/
def sys_store : Sys :=
  ⟨"/w", ⟨[(get_secrets_path "/w" (some "api"), ⟨"ENC", true⟩),
           (get_age_key_path "/w" (some "api"), ⟨"KEY", true⟩)], []⟩, []⟩

/-- Concrete oracle: decryption and parsing succeed, yielding `doc_db`. -/
def w_store : SopsWorld :=
  ⟨.ok "dtext", .ok doc_db, .ok "jtext", "database:\n  username: u\n  password: p\n"⟩

/-- Concrete state for C5: the key file exists but contains no
`# public key:` marker line. -/
def sys_nomarker : Sys :=
  ⟨"/w", ⟨[(get_age_key_path "/w" (some "api"),
            ⟨"AGE-SECRET-KEY-1ABC\n", true⟩)], []⟩, []⟩

/-- Concrete keygen oracle for C5. -/
def kg_c5 : Except String KeygenOut :=
  .ok ⟨"Public key: PK9\n", "# public key: PK9\nKEYMAT\n"⟩

/-- Concrete deploy state for C1: project `api` with helm dir, Chart.yaml
and base values under cwd `/w`. -/
def sys_c1 : Sys :=
  ⟨"/w",
   ⟨[(pathJoin (pathJoin (pathJoin "/w" "api") "helm") "Chart.yaml", ⟨"c", true⟩),
     (pathJoin (pathJoin (pathJoin "/w" "api") "helm") "values.yaml", ⟨"v", true⟩)],
    [pathJoin (pathJoin "/w" "api") "helm"]⟩, []⟩

/-- Concrete deploy state for C2: project `web`, environment `dev`. -/
def sys_c2 : Sys :=
  ⟨"/w",
   ⟨[(pathJoin (pathJoin (pathJoin "/w" "web") "helm") "Chart.yaml", ⟨"c", true⟩)],
    [pathJoin (pathJoin "/w" "web") "helm"]⟩, []⟩

/-- Concrete deploy state for C8: project `svc`, environment `prod`, both
the base values file and the environment values file exist. -/
def sys_c8 : Sys :=
  ⟨"/w",
   ⟨[(pathJoin (pathJoin (pathJoin "/w" "svc") "helm") "Chart.yaml", ⟨"c", true⟩),
     (pathJoin (pathJoin (pathJoin "/w" "svc") "helm") "values.yaml", ⟨"v", true⟩),
     (pathJoin (pathJoin (pathJoin (pathJoin "/w" "svc") "environments") "prod")
        "values.yaml", ⟨"e", true⟩)],
    [pathJoin (pathJoin "/w" "svc") "helm"]⟩, []⟩

/-- Contract of the external key generator needed for idempotence (spec §6:
`generate(outputPath) -> (keyMaterial, publicIdentity)`): on success the
written key material embeds a non-empty public key on its marker line, and
it agrees with the `Public key:` line on stderr when one is present. -/
def keygenConsistent : Except String KeygenOut → Bool
  | .ok ko =>
      optTruthy (markerLookup pk_marker_file ko.fileContent) &&
      (match markerLookup pk_marker_stderr ko.stderrOut with
       | none => true
       | some s => markerLookup pk_marker_file ko.fileContent == some s)
  | .error _ => true

/-- State in which one `setup_secrets` run has completed for a scope with
public key `pk`: readable marker-bearing key file, policy file, secrets
file, non-empty key, and (when a project is given) the project directory. -/
def setup_done (sys : Sys) (project : Option String) (pk : String) : Bool :=
  (match sys.fs.read (get_age_key_path sys.cwd project) with
   | some content => markerLookup pk_marker_file content == some pk
   | none => false) &&
  sys.fs.existsFile (pathJoin (get_project_root sys.cwd project) ".sops.yaml") &&
  sys.fs.existsFile (get_secrets_path sys.cwd project) &&
  (pk != "") &&
  (match project with
   | some _ => sys.fs.dirs.contains (get_project_root sys.cwd project)
   | none => true)

/-- The part of `setup_secrets` after the dependency check and project-dir
creation (sops_age.py lines 267-289), factored out for the proofs. -/
def setup_tail (w : SetupWorld) (sys1 : Sys) (project : Option String) : SetupResult :=
  let gr := generate_age_key w.keygen sys1 project
  if !(optTruthy gr.pk) then ⟨false, gr.pk, gr.sys⟩
  else
    let r2 := create_sops_config (gr.pk.getD "") gr.sys project
    if !r2.1 then ⟨false, gr.pk, r2.2⟩
    else
      let r3 := create_initial_secrets_file w.encrypt r2.2 project
      if !r3.1 then ⟨false, gr.pk, r3.2⟩
      else ⟨true, gr.pk, r3.2⟩

/-- Concrete empty starting state for the C6 witness. -/
def sys0_c6 : Sys := ⟨"/w", ⟨[], []⟩, []⟩

/-- First-run world for the C6 witness: everything succeeds. -/
def w1_c6 : SetupWorld :=
  ⟨true, true,
   .ok ⟨"Public key: PK1\n", "# created: x\n# public key: PK1\nAGE-SECRET-KEY-1\n"⟩,
   .ok "CIPHERTEXT"⟩

/-- Second-run world for the C6 witness: the external key generator and the
encryption engine would FAIL — showing the second run never consults them. -/
def w2_c6 : SetupWorld := ⟨true, true, .error "kgerr", .error "encerr"⟩

/-! ## Lemmas, claim theorems, witnesses and counterexamples -/

theorem FS.files_mkdirF (fs : FS) (p : String) : (fs.mkdirF p).files = fs.files := by
  unfold FS.mkdirF; split <;> rfl

theorem FS.dirs_writeF (fs : FS) (p c : String) : (fs.writeF p c).dirs = fs.dirs := rfl

theorem FS.existsFile_mkdirF (fs : FS) (p q : String) :
    (fs.mkdirF q).existsFile p = fs.existsFile p := by
  simp [FS.existsFile, FS.files_mkdirF]

theorem FS.read_mkdirF (fs : FS) (p q : String) :
    (fs.mkdirF q).read p = fs.read p := by
  simp [FS.read, FS.files_mkdirF]

theorem FS.contains_mkdirF_self (fs : FS) (p : String) :
    ((fs.mkdirF p).dirs.contains p) = true := by
  unfold FS.mkdirF; split
  · assumption
  · simp [List.contains_cons]

theorem FS.contains_mkdirF_mono (fs : FS) (p q : String)
    (h : fs.dirs.contains p = true) : ((fs.mkdirF q).dirs.contains p) = true := by
  unfold FS.mkdirF; split
  · exact h
  · simp only [List.contains_cons, h, Bool.or_true]

theorem FS.existsFile_writeF_self (fs : FS) (p c : String) :
    (fs.writeF p c).existsFile p = true := by
  simp [FS.existsFile, FS.writeF]

theorem FS.existsFile_writeF_ne (fs : FS) (p q c : String) (h : p ≠ q) :
    (fs.writeF q c).existsFile p = fs.existsFile p := by
  simp only [FS.existsFile, FS.writeF, List.any_cons]
  have : (q == p) = false := by simpa using fun hqp => h hqp.symm
  simp only [this, Bool.false_or]
  rw [Bool.eq_iff_iff]
  constructor
  · intro hx
    rcases List.any_eq_true.mp hx with ⟨e, he, hep⟩
    exact List.any_eq_true.mpr ⟨e, (List.mem_filter.mp he).1, hep⟩
  · intro hx
    rcases List.any_eq_true.mp hx with ⟨e, he, hep⟩
    refine List.any_eq_true.mpr ⟨e, List.mem_filter.mpr ⟨he, ?_⟩, hep⟩
    have : e.1 = p := by simpa using hep
    simp only [this, Bool.not_eq_true']
    exact beq_eq_false_iff_ne.mpr h

theorem FS.read_writeF_self (fs : FS) (p c : String) :
    (fs.writeF p c).read p = some c := by
  simp [FS.read, FS.writeF]

theorem FS.read_writeF_ne (fs : FS) (p q c : String) (h : p ≠ q) :
    (fs.writeF q c).read p = fs.read p := by
  simp only [FS.read, FS.writeF]
  have hqp : (q == p) = false := beq_eq_false_iff_ne.mpr (Ne.symm h)
  simp only [List.find?_cons, hqp]
  have : ∀ l : List (String × FileEnt),
      (l.filter (fun e => !(e.1 == q))).find? (fun e => e.1 == p) =
        l.find? (fun e => e.1 == p) := by
    intro l
    induction l with
    | nil => rfl
    | cons x xs ih =>
      by_cases hx : x.1 = p
      · have hxq : (!(x.1 == q)) = true := by
          simp only [hx, Bool.not_eq_true']
          exact beq_eq_false_iff_ne.mpr h
        simp [List.filter_cons, hxq, List.find?_cons, hx, h]
      · by_cases hxq : x.1 = q
        · have : (!(x.1 == q)) = false := by simp [hxq]
          simp [List.filter_cons, this, List.find?_cons, hx, ih]
        · have : (!(x.1 == q)) = true := by simp [hxq]
          simp [List.filter_cons, this, List.find?_cons, hx, ih]
  rw [this]

theorem FS.existsFile_unlinkF_self (fs : FS) (p : String) :
    (fs.unlinkF p).existsFile p = false := by
  simp only [FS.existsFile, FS.unlinkF]
  rw [Bool.eq_false_iff]
  intro hx
  rcases List.any_eq_true.mp hx with ⟨e, he, hep⟩
  have h1 := (List.mem_filter.mp he).2
  simp only [hep, Bool.not_true] at h1
  exact absurd h1 (by simp)

theorem Sys.cwd_writeFile (s : Sys) (p c : String) : (s.writeFile p c).cwd = s.cwd := rfl

theorem Sys.cwd_unlinkFile (s : Sys) (p : String) : (s.unlinkFile p).cwd = s.cwd := rfl

theorem Sys.cwd_mkdir (s : Sys) (p : String) : (s.mkdir p).cwd = s.cwd := rfl

/-- Two strings with a common prefix and suffixes of different lengths differ. -/
theorem ne_of_suffix_length_ne (r a b : String) (h : a.length ≠ b.length) :
    r ++ a ≠ r ++ b := by
  intro he
  apply h
  have := congrArg String.length he
  simpa [String.length_append] using this

theorem pathJoin_length (a b : String) :
    (pathJoin a b).length = a.length + 1 + b.length := by
  have h1 : ("/" : String).length = 1 := rfl
  simp only [pathJoin, String.length_append, h1]

theorem ne_of_length_ne (s t : String) (h : s.length ≠ t.length) : s ≠ t :=
  fun he => h (by rw [he])

theorem get_age_key_path_length (c : String) (pr : Option String) :
    (get_age_key_path c pr).length = (get_project_root c pr).length + 20 := by
  have h1 : ("secrets" : String).length = 7 := by decide
  have h2 : ("age-key.txt" : String).length = 11 := by decide
  simp only [get_age_key_path, get_secrets_dir, pathJoin_length, h1, h2]

theorem get_secrets_path_length (c : String) (pr : Option String) :
    (get_secrets_path c pr).length = (get_project_root c pr).length + 21 := by
  have h1 : ("secrets" : String).length = 7 := by decide
  have h2 : ("secrets.yaml" : String).length = 12 := by decide
  simp only [get_secrets_path, get_secrets_dir, pathJoin_length, h1, h2]

theorem sops_config_path_length (c : String) (pr : Option String) :
    (pathJoin (get_project_root c pr) ".sops.yaml").length =
      (get_project_root c pr).length + 11 := by
  have h1 : (".sops.yaml" : String).length = 10 := by decide
  simp only [pathJoin_length, h1]

theorem age_key_ne_sops_config (c : String) (pr : Option String) :
    get_age_key_path c pr ≠ pathJoin (get_project_root c pr) ".sops.yaml" := by
  apply ne_of_length_ne
  rw [get_age_key_path_length, sops_config_path_length]
  omega

theorem age_key_ne_secrets_path (c : String) (pr : Option String) :
    get_age_key_path c pr ≠ get_secrets_path c pr := by
  apply ne_of_length_ne
  rw [get_age_key_path_length, get_secrets_path_length]
  omega

theorem secrets_path_ne_sops_config (c : String) (pr : Option String) :
    get_secrets_path c pr ≠ pathJoin (get_project_root c pr) ".sops.yaml" := by
  apply ne_of_length_ne
  rw [get_secrets_path_length, sops_config_path_length]
  omega

theorem cleanup_temp_secrets_cwd (s : Sys) (p : String) (e : Option String) :
    (cleanup_temp_secrets s p e).cwd = s.cwd := by
  unfold cleanup_temp_secrets
  split
  · dsimp only
    split <;> rfl
  · rfl

theorem helm_exec_and_cleanup_cwd (h : HelmRes) (s : Sys) (p : String)
    (e : Option String) (l : List String) :
    (helm_exec_and_cleanup h s p e l).sys.cwd = s.cwd := by
  cases h <;> simp [helm_exec_and_cleanup, cleanup_temp_secrets_cwd]

/-- Claim C10: every invocation of `deploy_helm_chart` leaves the process's
current working directory unchanged on return — the directory change made
around the materialization step is undone on every path, including the path
on which the materializer call raises. -/
theorem deploy_helm_chart_preserves_cwd (w : DeployWorld) (sys : Sys)
    (project : String) (environment nspace : Option String) :
    (deploy_helm_chart w sys project environment nspace).sys.cwd = sys.cwd := by
  unfold deploy_helm_chart
  dsimp only
  split
  · rfl
  · split
    · rfl
    · split
      · rfl
      · split
        · rfl
        · exact helm_exec_and_cleanup_cwd _ _ _ _ _

/-- Claim C4: when initialization reaches the encryption step and the
external engine exits non-zero, `create_initial_secrets_file` deletes the
partially written plaintext file and returns failure — no plaintext secrets
artifact survives. -/
theorem create_initial_secrets_encrypt_failure_cleans (sys : Sys)
    (project : Option String) (e : String)
    (h : sys.fs.existsFile (get_secrets_path sys.cwd project) = false) :
    (create_initial_secrets_file (.error e) sys project).1 = false ∧
    (create_initial_secrets_file (.error e) sys project).2.fs.existsFile
      (get_secrets_path sys.cwd project) = false := by
  unfold create_initial_secrets_file
  simp only [h, Bool.false_eq_true, if_false]
  simp only [Sys.writeFile, Sys.mkdir, Sys.unlinkFile, FS.existsFile_writeF_self,
    if_true, FS.existsFile_unlinkF_self, and_self]

/-- Witness for C4 at a concrete empty filesystem. -/
theorem create_initial_secrets_encrypt_failure_cleans_witness :
    (⟨"/w", ⟨[], []⟩, []⟩ : Sys).fs.existsFile
        (get_secrets_path "/w" (some "api")) = false ∧
    ((create_initial_secrets_file (.error "err") ⟨"/w", ⟨[], []⟩, []⟩ (some "api")).1 = false ∧
      (create_initial_secrets_file (.error "err") ⟨"/w", ⟨[], []⟩, []⟩
          (some "api")).2.fs.existsFile (get_secrets_path "/w" (some "api")) = false) :=
  ⟨by decide,
    create_initial_secrets_encrypt_failure_cleans ⟨"/w", ⟨[], []⟩, []⟩ (some "api") "err"
      (by decide)⟩

theorem generate_fresh_invoked (kg : Except String KeygenOut) (s : Sys)
    (d f : String) : (generate_fresh kg s d f).invoked = true := by
  unfold generate_fresh
  cases kg
  · rfl
  · dsimp only
    split
    · rfl
    · split <;> rfl

/-- Claim C7: for decrypted data `{database: {username: "u", password: "p"}}`
and no specific key requested, env-format output is exactly
`export DATABASE_USERNAME='u'` then `export DATABASE_PASSWORD='p'`, in the
input document's key order. -/
theorem decrypt_env_flattening (w : SopsWorld) (sys : Sys) (project : Option String)
    (h1 : sys.fs.existsFile (get_secrets_path sys.cwd project) = true)
    (h2 : sys.fs.existsFile (get_age_key_path sys.cwd project) = true)
    (d : String) (hd : w.decryptRes = .ok d) (hp : w.parseRes = .ok doc_db) :
    decrypt_secrets w sys "env" none project =
      (true, ["export DATABASE_USERNAME=" ++ sqm ++ "u" ++ sqm,
              "export DATABASE_PASSWORD=" ++ sqm ++ "p" ++ sqm]) := by
  unfold decrypt_secrets
  simp only [h1, h2, hd, hp, Bool.not_true, Bool.false_eq_true, if_false]
  rw [if_neg (by decide), if_neg (by decide)]
  decide

/-- Witness for C7 at the concrete store state. -/
theorem decrypt_env_flattening_witness :
    decrypt_secrets w_store sys_store "env" none (some "api") =
      (true, ["export DATABASE_USERNAME=" ++ sqm ++ "u" ++ sqm,
              "export DATABASE_PASSWORD=" ++ sqm ++ "p" ++ sqm]) :=
  decrypt_env_flattening w_store sys_store (some "api") (by decide) (by decide)
    "dtext" rfl rfl

/-- Claim C9 counterexample: in `yaml` output mode a requested key that is
absent from the decrypted structure does NOT fail — the call succeeds and
prints the whole document, so the claimed behavior does not hold "for each
of the supported output modes". -/
theorem decrypt_yaml_ignores_missing_key :
    decrypt_secrets w_store sys_store "yaml" (some "missing") (some "api") =
      (true, ["dtext"]) := by decide

/-- Claim C9 (amended): only in `env` mode is the requested key consulted:
an absent top-level key fails, a present key's value is echoed. -/
theorem decrypt_env_key_extraction (w : SopsWorld) (sys : Sys)
    (project : Option String) (k : String)
    (h1 : sys.fs.existsFile (get_secrets_path sys.cwd project) = true)
    (h2 : sys.fs.existsFile (get_age_key_path sys.cwd project) = true)
    (d : String) (hd : w.decryptRes = .ok d)
    (data : YDoc) (hp : w.parseRes = .ok data) (hk : k ≠ "") :
    (ylookup k data = none →
      decrypt_secrets w sys "env" (some k) project = (false, [])) ∧
    (∀ v, ylookup k data = some v →
      decrypt_secrets w sys "env" (some k) project = (true, [pyStr v])) := by
  unfold decrypt_secrets
  simp only [h1, h2, hd, hp, Bool.not_true, Bool.false_eq_true, if_false]
  have hkt : optTruthy (some k) = true := by
    simp [optTruthy, hk]
  simp only [hkt, eq_self_iff_true, if_true, Option.getD]
  constructor
  · intro hnone
    simp [hnone]
  · intro v hv
    simp [hv]

/-- Witness for C9's amended theorem: both the absent-key failure and the
present-key echo at the concrete store. -/
theorem decrypt_env_key_extraction_witness :
    decrypt_secrets w_store sys_store "env" (some "missing") (some "api") = (false, []) ∧
    decrypt_secrets w_store sys_store "env" (some "database") (some "api") =
      (true, [pyStr (.inr (.strEntry "username" "u" (.strEntry "password" "p" .nil)))]) :=
  ⟨(decrypt_env_key_extraction w_store sys_store (some "api") "missing"
      (by decide) (by decide) "dtext" rfl doc_db rfl (by decide)).1 (by decide),
   (decrypt_env_key_extraction w_store sys_store (some "api") "database"
      (by decide) (by decide) "dtext" rfl doc_db rfl (by decide)).2
      (.inr (.strEntry "username" "u" (.strEntry "password" "p" .nil))) (by decide)⟩

/-- Claim C3 counterexample: the materializer's output path is derived from
the project alone — `make_temp_secrets_yaml` has no environment parameter —
so for project `api` it writes `/tmp/api-secret-values.yaml`, not the
spec's `(project, environment)`-derived `/tmp/api-prod-secret-values.yaml`,
where no file is created. -/
theorem make_temp_path_lacks_environment :
    temp_out_path (some "api") ≠ spec_temp_path (some "api") (some "prod") ∧
    (make_temp_secrets_yaml w_store sys_store (some "api")).2.fs.existsFile
      (spec_temp_path (some "api") (some "prod")) = false ∧
    (make_temp_secrets_yaml w_store sys_store (some "api")).2.fs.existsFile
      (temp_out_path (some "api")) = true := by decide

/-- Claim C3 (amended): when its preconditions hold and decryption and
parsing succeed, the materializer writes exactly one file, at the
project-derived path `/tmp/<project>-secret-values.yaml` (unscoped variant
without project), whose content is a single top-level `secrets:` key with
every line of the serialized document indented beneath it. -/
theorem make_temp_secrets_yaml_writes_project_path (w : SopsWorld) (sys : Sys)
    (project : Option String)
    (h1 : sys.fs.existsFile (get_secrets_path sys.cwd project) = true)
    (h2 : sys.fs.existsFile (get_age_key_path sys.cwd project) = true)
    (d : String) (hd : w.decryptRes = .ok d)
    (data : YDoc) (hp : w.parseRes = .ok data) :
    make_temp_secrets_yaml w sys project =
      (true, sys.writeFile (temp_out_path project) (wrapped_secrets w.dumped)) := by
  unfold make_temp_secrets_yaml
  simp [h1, h2, hd, hp]

/-- Witness for C3's amended theorem at the concrete store state. -/
theorem make_temp_secrets_yaml_writes_project_path_witness :
    make_temp_secrets_yaml w_store sys_store (some "api") =
      (true, sys_store.writeFile (temp_out_path (some "api"))
        (wrapped_secrets w_store.dumped)) :=
  make_temp_secrets_yaml_writes_project_path w_store sys_store (some "api")
    (by decide) (by decide) "dtext" rfl doc_db rfl

/-- Claim C5 counterexample: with existing key material that lacks the
marker line, `generate_age_key` does NOT fail with a read error — it falls
through and invokes the key-generation primitive on the existing path. -/
theorem generate_age_key_regenerates_on_missing_marker :
    (generate_age_key kg_c5 sys_nomarker (some "api")).invoked = true ∧
    (generate_age_key kg_c5 sys_nomarker (some "api")).pk = some "PK9" := by decide

/-- Claim C5 (amended): when key material exists, a readable file with the
marker returns its embedded public key without invoking generation; an
unreadable file fails (returns `None`) without invoking generation; but a
readable file WITHOUT the marker line falls through and invokes the
key-generation primitive. -/
theorem generate_age_key_existing_key (kg : Except String KeygenOut)
    (sys : Sys) (project : Option String)
    (hex : sys.fs.existsFile (get_age_key_path sys.cwd project) = true) :
    (sys.fs.read (get_age_key_path sys.cwd project) = none →
      generate_age_key kg sys project = ⟨none, sys, false⟩) ∧
    (∀ content pk, sys.fs.read (get_age_key_path sys.cwd project) = some content →
      markerLookup pk_marker_file content = some pk →
      generate_age_key kg sys project = ⟨some pk, sys, false⟩) ∧
    (∀ content, sys.fs.read (get_age_key_path sys.cwd project) = some content →
      markerLookup pk_marker_file content = none →
      (generate_age_key kg sys project).invoked = true) := by
  unfold generate_age_key
  simp only [hex, if_true]
  refine ⟨?_, ?_, ?_⟩
  · intro hr
    simp [hr]
  · intro content pk hr hm
    simp [hr, hm]
  · intro content hr hm
    simp [hr, hm, generate_fresh_invoked]

/-- Witness for C5's amended theorem: a readable marker-bearing key file
returns the embedded key without generation. -/
theorem generate_age_key_existing_key_witness :
    generate_age_key kg_c5
        ⟨"/w", ⟨[(get_age_key_path "/w" (some "api"),
                  ⟨"# public key: PK1\nSEC\n", true⟩)], []⟩, []⟩ (some "api") =
      ⟨some "PK1",
       ⟨"/w", ⟨[(get_age_key_path "/w" (some "api"),
                 ⟨"# public key: PK1\nSEC\n", true⟩)], []⟩, []⟩, false⟩ :=
  (generate_age_key_existing_key kg_c5
      ⟨"/w", ⟨[(get_age_key_path "/w" (some "api"),
                ⟨"# public key: PK1\nSEC\n", true⟩)], []⟩, []⟩ (some "api")
      (by decide)).2.1 "# public key: PK1\nSEC\n" "PK1" (by decide) (by decide)

/-- Claim C1 (code bug): on an environment-bearing deploy the function never
reaches the helm invocation or the cleanup blocks — the materializer call of
line 173 raises `TypeError` (unexpected keyword `environment`) and the
exception propagates; moreover the path the cleanup blocks would unlink,
`/tmp/<project>-<env>-secret-values.yaml`, is not the path the materializer
writes, `/tmp/<project>-secret-values.yaml`. -/
theorem deploy_env_raises_and_cleanup_path_mismatch :
    (deploy_helm_chart ⟨.ok "ns", .ok "out"⟩ sys_c1 "api" (some "prod")
        (some "default")).ret = .raise typeErrorExc ∧
    (deploy_helm_chart ⟨.ok "ns", .ok "out"⟩ sys_c1 "api" (some "prod")
        (some "default")).helmRan = false ∧
    temp_out_path (some "api") ≠ secrets_cleanup_path "api" "prod" := by decide

/-- Claim C2 (code bug): a deploy with an environment aborts with an uncaught
`TypeError` at the materializer call site and never proceeds to invoke the
package manager — the warn-and-continue handling of a materializer failure
(deploy.py lines 180-181) is unreachable. -/
theorem deploy_env_aborts_instead_of_continuing :
    (deploy_helm_chart ⟨.ok "ns", .calledErr "o" "e"⟩ sys_c2 "web" (some "dev")
        (some "default")).ret = .raise typeErrorExc ∧
    (deploy_helm_chart ⟨.ok "ns", .calledErr "o" "e"⟩ sys_c2 "web" (some "dev")
        (some "default")).helmRan = false := by decide

/-- Claim C8 (code bug): with base and environment values both present, the
layer list assembled before the crash is `[base, environment]` — in that
order, with no secrets layer — and no list is ever passed to the package
manager, because the deploy raises `TypeError` before invoking helm. -/
theorem deploy_layer_list_never_reaches_helm :
    (deploy_helm_chart ⟨.ok "ns", .ok "out"⟩ sys_c8 "svc" (some "prod")
        (some "default")).layers =
      [pathJoin (pathJoin (pathJoin "/w" "svc") "helm") "values.yaml",
       pathJoin (pathJoin (pathJoin (pathJoin "/w" "svc") "environments") "prod")
         "values.yaml"] ∧
    (deploy_helm_chart ⟨.ok "ns", .ok "out"⟩ sys_c8 "svc" (some "prod")
        (some "default")).helmRan = false ∧
    (deploy_helm_chart ⟨.ok "ns", .ok "out"⟩ sys_c8 "svc" (some "prod")
        (some "default")).ret = .raise typeErrorExc := by decide

theorem FS.existsFile_of_read (fs : FS) (p c : String)
    (h : fs.read p = some c) : fs.existsFile p = true := by
  unfold FS.read at h
  cases hf : fs.files.find? (·.1 == p) with
  | none => rw [hf] at h; exact absurd h (by simp)
  | some e =>
    have hmem := List.mem_of_find?_eq_some hf
    have hpred := List.find?_some hf
    exact List.any_eq_true.mpr ⟨e, hmem, by simpa using hpred⟩

theorem Sys.mkdir_noop (s : Sys) (p : String)
    (h : s.fs.dirs.contains p = true) : s.mkdir p = s := by
  unfold Sys.mkdir FS.mkdirF
  rw [h]
  rfl

/-- On a `setup_done` state a further `setup_secrets` run performs no write:
it returns success, the same public key, and the state unchanged. -/
theorem setup_on_done (w : SetupWorld) (sys : Sys) (project : Option String)
    (pk : String) (hdep : check_dependencies w = true)
    (hdone : setup_done sys project pk = true) :
    setup_secrets w sys project = ⟨true, some pk, sys⟩ := by
  unfold setup_done at hdone
  simp only [Bool.and_eq_true] at hdone
  obtain ⟨⟨⟨⟨h_key, h_cfg⟩, h_sec⟩, h_ne⟩, h_dir⟩ := hdone
  obtain ⟨content, hread, hmark⟩ :
      ∃ c, sys.fs.read (get_age_key_path sys.cwd project) = some c ∧
        markerLookup pk_marker_file c = some pk := by
    cases hr : sys.fs.read (get_age_key_path sys.cwd project) with
    | none => rw [hr] at h_key; exact absurd h_key (by simp)
    | some c =>
      rw [hr] at h_key
      exact ⟨c, rfl, by simpa using h_key⟩
  have hex : sys.fs.existsFile (get_age_key_path sys.cwd project) = true :=
    FS.existsFile_of_read _ _ _ hread
  have hgen : generate_age_key w.keygen sys project = ⟨some pk, sys, false⟩ := by
    unfold generate_age_key
    simp only [hex, if_true, hread, hmark]
  have htr : optTruthy (some pk) = true := by simpa [optTruthy] using h_ne
  have hcfg : create_sops_config pk sys project = (true, sys) := by
    unfold create_sops_config
    simp only [h_cfg, if_true]
  have hini : create_initial_secrets_file w.encrypt sys project = (true, sys) := by
    unfold create_initial_secrets_file
    simp only [h_sec, if_true]
  cases project with
  | none =>
    unfold setup_secrets
    rw [hdep]
    simp only [Bool.not_true, Bool.false_eq_true, if_false]
    rw [hgen]
    simp only [htr, Bool.not_true, Bool.false_eq_true, if_false, Option.getD]
    rw [hcfg]
    simp only [Bool.not_true, Bool.false_eq_true, if_false]
    rw [hini]
    simp
  | some p =>
    have hroot : sys.fs.dirs.contains (get_project_root sys.cwd (some p)) = true := by
      simpa using h_dir
    unfold setup_secrets
    rw [hdep]
    simp only [Bool.not_true, Bool.false_eq_true, if_false]
    rw [Sys.mkdir_noop _ _ hroot, hgen]
    simp only [htr, Bool.not_true, Bool.false_eq_true, if_false, Option.getD]
    rw [hcfg]
    simp only [Bool.not_true, Bool.false_eq_true, if_false]
    rw [hini]
    simp

theorem generate_fresh_sys (kg : Except String KeygenOut) (s : Sys) (d f : String)
    (ko : KeygenOut) (hk : kg = .ok ko) :
    (generate_fresh kg s d f).sys = (s.mkdir d).writeFile f ko.fileContent := by
  subst hk
  unfold generate_fresh
  dsimp only
  split
  · rfl
  · split <;> rfl

theorem generate_fresh_marker (kg : Except String KeygenOut) (s : Sys) (d f : String)
    (pk : String) (hcons : keygenConsistent kg = true)
    (hpk : (generate_fresh kg s d f).pk = some pk) :
    ∃ c, (generate_fresh kg s d f).sys.fs.read f = some c ∧
      markerLookup pk_marker_file c = some pk ∧ pk ≠ "" := by
  cases hk : kg with
  | error e => subst hk; simp [generate_fresh] at hpk
  | ok ko =>
    have hsys := generate_fresh_sys kg s d f ko hk
    have hread : (generate_fresh kg s d f).sys.fs.read f = some ko.fileContent := by
      rw [hsys]
      simp [Sys.writeFile, Sys.mkdir, FS.read_writeF_self]
    subst hk
    unfold keygenConsistent at hcons
    simp only [Bool.and_eq_true] at hcons
    obtain ⟨hopt, hagree⟩ := hcons
    refine ⟨ko.fileContent, hread, ?_⟩
    unfold generate_fresh at hpk
    dsimp only at hpk
    cases hst : markerLookup pk_marker_stderr ko.stderrOut with
    | some spk =>
      rw [hst] at hpk hagree
      simp only at hpk
      have hfile : markerLookup pk_marker_file ko.fileContent = some spk := by
        simpa using hagree
      have : spk = pk := by simpa using hpk
      subst this
      refine ⟨hfile, ?_⟩
      rw [hfile] at hopt
      simpa [optTruthy] using hopt
    | none =>
      rw [hst] at hpk
      simp only at hpk
      cases hfm : markerLookup pk_marker_file ko.fileContent with
      | some fpk =>
        rw [hfm] at hpk
        simp only at hpk
        have : fpk = pk := by simpa using hpk
        subst this
        refine ⟨rfl, ?_⟩
        rw [hfm] at hopt
        simpa [optTruthy] using hopt
      | none =>
        rw [hfm] at hpk
        simp at hpk

theorem generate_fresh_cwd (kg : Except String KeygenOut) (s : Sys) (d f : String) :
    (generate_fresh kg s d f).sys.cwd = s.cwd := by
  unfold generate_fresh
  cases kg
  · rfl
  · dsimp only
    split
    · rfl
    · split <;> rfl

theorem generate_fresh_existsFile_ne (kg : Except String KeygenOut) (s : Sys)
    (d f q : String) (hq : q ≠ f) :
    (generate_fresh kg s d f).sys.fs.existsFile q = s.fs.existsFile q := by
  unfold generate_fresh
  cases kg
  · simp [Sys.mkdir, FS.existsFile_mkdirF]
  · dsimp only
    have h2 : ∀ c, (((s.mkdir d).writeFile f c)).fs.existsFile q = s.fs.existsFile q := by
      intro c
      simp [Sys.writeFile, Sys.mkdir, FS.existsFile_writeF_ne _ _ _ _ hq,
        FS.existsFile_mkdirF]
    split
    · exact h2 _
    · split <;> exact h2 _

theorem generate_fresh_contains (kg : Except String KeygenOut) (s : Sys)
    (d f p : String) (h : s.fs.dirs.contains p = true) :
    (generate_fresh kg s d f).sys.fs.dirs.contains p = true := by
  unfold generate_fresh
  cases kg
  · simpa [Sys.mkdir] using FS.contains_mkdirF_mono s.fs p d h
  · dsimp only
    have h2 : ∀ c, (((s.mkdir d).writeFile f c)).fs.dirs.contains p = true := by
      intro c
      simp only [Sys.writeFile, Sys.mkdir, FS.dirs_writeF]
      exact FS.contains_mkdirF_mono s.fs p d h
    split
    · exact h2 _
    · split <;> exact h2 _

theorem generate_age_key_cwd (kg : Except String KeygenOut) (s : Sys)
    (pr : Option String) : (generate_age_key kg s pr).sys.cwd = s.cwd := by
  unfold generate_age_key
  dsimp only
  split
  · split
    · rfl
    · split
      · rfl
      · exact generate_fresh_cwd _ _ _ _
  · exact generate_fresh_cwd _ _ _ _

theorem generate_age_key_marker (kg : Except String KeygenOut) (s : Sys)
    (pr : Option String) (pk : String) (hcons : keygenConsistent kg = true)
    (hpk : (generate_age_key kg s pr).pk = some pk) :
    ∃ c, (generate_age_key kg s pr).sys.fs.read (get_age_key_path s.cwd pr) = some c ∧
      markerLookup pk_marker_file c = some pk := by
  unfold generate_age_key at hpk ⊢
  dsimp only at hpk ⊢
  by_cases hex : s.fs.existsFile (get_age_key_path s.cwd pr) = true
  · simp only [hex, if_true] at hpk ⊢
    cases hread : s.fs.read (get_age_key_path s.cwd pr) with
    | none =>
      simp only [hread] at hpk
      exact absurd hpk (by simp)
    | some content =>
      simp only [hread] at hpk ⊢
      cases hmark : markerLookup pk_marker_file content with
      | some pk2 =>
        simp only [hmark] at hpk ⊢
        have : pk2 = pk := by simpa using hpk
        subst this
        exact ⟨content, by simpa using hread, hmark⟩
      | none =>
        simp only [hmark] at hpk ⊢
        obtain ⟨c, hr, hm, _⟩ := generate_fresh_marker kg s _ _ pk hcons hpk
        exact ⟨c, hr, hm⟩
  · simp only [Bool.not_eq_true] at hex
    simp only [hex, Bool.false_eq_true, if_false] at hpk ⊢
    obtain ⟨c, hr, hm, _⟩ := generate_fresh_marker kg s _ _ pk hcons hpk
    exact ⟨c, hr, hm⟩

theorem generate_age_key_existsFile_ne (kg : Except String KeygenOut) (s : Sys)
    (pr : Option String) (q : String) (hq : q ≠ get_age_key_path s.cwd pr) :
    (generate_age_key kg s pr).sys.fs.existsFile q = s.fs.existsFile q := by
  unfold generate_age_key
  dsimp only
  split
  · split
    · rfl
    · split
      · rfl
      · exact generate_fresh_existsFile_ne kg s _ _ q hq
  · exact generate_fresh_existsFile_ne kg s _ _ q hq

theorem generate_age_key_contains (kg : Except String KeygenOut) (s : Sys)
    (pr : Option String) (p : String) (h : s.fs.dirs.contains p = true) :
    (generate_age_key kg s pr).sys.fs.dirs.contains p = true := by
  unfold generate_age_key
  dsimp only
  split
  · split
    · exact h
    · split
      · exact h
      · exact generate_fresh_contains kg s _ _ p h
  · exact generate_fresh_contains kg s _ _ p h

theorem create_sops_config_post (k : String) (s : Sys) (pr : Option String) :
    (create_sops_config k s pr).1 = true ∧
    (create_sops_config k s pr).2.cwd = s.cwd ∧
    (create_sops_config k s pr).2.fs.existsFile
      (pathJoin (get_project_root s.cwd pr) ".sops.yaml") = true ∧
    (∀ q, q ≠ pathJoin (get_project_root s.cwd pr) ".sops.yaml" →
      (create_sops_config k s pr).2.fs.read q = s.fs.read q ∧
      (create_sops_config k s pr).2.fs.existsFile q = s.fs.existsFile q) ∧
    (create_sops_config k s pr).2.fs.dirs = s.fs.dirs := by
  unfold create_sops_config
  dsimp only
  split
  · refine ⟨rfl, rfl, by assumption, fun q hq => ⟨rfl, rfl⟩, rfl⟩
  · refine ⟨rfl, rfl, ?_, fun q hq => ⟨?_, ?_⟩, rfl⟩
    · simp [Sys.writeFile, FS.existsFile_writeF_self]
    · simp [Sys.writeFile, FS.read_writeF_ne _ _ _ _ hq]
    · simp [Sys.writeFile, FS.existsFile_writeF_ne _ _ _ _ hq]

theorem create_initial_post (enc : Except String String) (s : Sys) (pr : Option String)
    (hok : (create_initial_secrets_file enc s pr).1 = true) :
    (create_initial_secrets_file enc s pr).2.cwd = s.cwd ∧
    (create_initial_secrets_file enc s pr).2.fs.existsFile
      (get_secrets_path s.cwd pr) = true ∧
    (∀ q, q ≠ get_secrets_path s.cwd pr →
      (create_initial_secrets_file enc s pr).2.fs.read q = s.fs.read q ∧
      (create_initial_secrets_file enc s pr).2.fs.existsFile q = s.fs.existsFile q) ∧
    (∀ p2, s.fs.dirs.contains p2 = true →
      (create_initial_secrets_file enc s pr).2.fs.dirs.contains p2 = true) := by
  unfold create_initial_secrets_file at hok ⊢
  dsimp only at hok ⊢
  split
  · rename_i hexs
    exact ⟨rfl, hexs, fun q hq => ⟨rfl, rfl⟩, fun p2 h2 => h2⟩
  · rename_i hnex
    rw [if_neg hnex] at hok
    cases enc with
    | error e => simp at hok
    | ok ct =>
      refine ⟨rfl, ?_, fun q hq => ⟨?_, ?_⟩, fun p2 h2 => ?_⟩
      · simp [Sys.writeFile, Sys.mkdir, FS.existsFile_writeF_self]
      · simp [Sys.writeFile, Sys.mkdir, FS.read_writeF_ne _ _ _ _ hq, FS.read_mkdirF]
      · simp [Sys.writeFile, Sys.mkdir, FS.existsFile_writeF_ne _ _ _ _ hq,
          FS.existsFile_mkdirF]
      · simp only [Sys.writeFile, Sys.mkdir, FS.dirs_writeF]
        exact FS.contains_mkdirF_mono _ _ _ h2

theorem setup_secrets_eq (w : SetupWorld) (sys : Sys) (project : Option String) :
    setup_secrets w sys project =
      if check_dependencies w then
        setup_tail w
          (match project with
            | some _ => sys.mkdir (get_project_root sys.cwd project)
            | none => sys) project
      else ⟨false, none, sys⟩ := by
  unfold setup_secrets setup_tail
  cases project <;> by_cases h : check_dependencies w <;> simp [h]

theorem setup_tail_done (w : SetupWorld) (s1 : Sys) (project : Option String)
    (hcons : keygenConsistent w.keygen = true)
    (hok : (setup_tail w s1 project).ok = true)
    (hdirs : (match project with
      | some _ => s1.fs.dirs.contains (get_project_root s1.cwd project)
      | none => true) = true) :
    ∃ pk, (setup_tail w s1 project).pk = some pk ∧
      setup_done (setup_tail w s1 project).sys project pk = true := by
  unfold setup_tail at hok ⊢
  dsimp only at hok ⊢
  cases hpk : (generate_age_key w.keygen s1 project).pk with
  | none =>
    rw [hpk] at hok
    simp [optTruthy] at hok
  | some pk =>
    rw [hpk] at hok
    by_cases htr : optTruthy (some pk) = true
    case neg =>
      have : optTruthy (some pk) = false := by simpa using htr
      rw [this] at hok
      simp at hok
    have hne : pk ≠ "" := by simpa [optTruthy] using htr
    rw [htr] at hok ⊢
    simp only [Bool.not_true, Bool.false_eq_true, if_false, Option.getD] at hok ⊢
    -- facts about the generation step
    have hcwd1 : (generate_age_key w.keygen s1 project).sys.cwd = s1.cwd :=
      generate_age_key_cwd _ _ _
    obtain ⟨c, hr, hm⟩ := generate_age_key_marker w.keygen s1 project pk hcons hpk
    -- facts about the policy-file step
    obtain ⟨hc1, hc2, hc3, hc4, hc5⟩ :=
      create_sops_config_post pk (generate_age_key w.keygen s1 project).sys project
    rw [hcwd1] at hc3 hc4
    rw [hc1] at hok ⊢
    simp only [Bool.not_true, Bool.false_eq_true, if_false] at hok ⊢
    -- the secrets-file step must have succeeded
    by_cases hini : (create_initial_secrets_file w.encrypt
        (create_sops_config pk (generate_age_key w.keygen s1 project).sys project).2
        project).1 = true
    case neg =>
      have : (create_initial_secrets_file w.encrypt
          (create_sops_config pk (generate_age_key w.keygen s1 project).sys project).2
          project).1 = false := by simpa using hini
      rw [this] at hok
      simp at hok
    rw [hini] at hok ⊢
    simp only [Bool.not_true, Bool.false_eq_true, if_false] at hok ⊢
    obtain ⟨hi1, hi2, hi3, hi4⟩ := create_initial_post w.encrypt
      (create_sops_config pk (generate_age_key w.keygen s1 project).sys project).2
      project hini
    have hcwd2 : (create_sops_config pk
        (generate_age_key w.keygen s1 project).sys project).2.cwd = s1.cwd := by
      rw [hc2, hcwd1]
    rw [hcwd2] at hi2 hi3
    have hcwd3 : (create_initial_secrets_file w.encrypt
        (create_sops_config pk (generate_age_key w.keygen s1 project).sys project).2
        project).2.cwd = s1.cwd := by
      rw [hi1, hcwd2]
    refine ⟨pk, rfl, ?_⟩
    unfold setup_done
    rw [hcwd3]
    simp only [Bool.and_eq_true]
    refine ⟨⟨⟨⟨?_, ?_⟩, ?_⟩, by simpa [optTruthy] using htr⟩, ?_⟩
    · -- key file still readable with the marker
      have hq1 : get_age_key_path s1.cwd project ≠ get_secrets_path s1.cwd project :=
        age_key_ne_secrets_path _ _
      have hq2 : get_age_key_path s1.cwd project ≠
          pathJoin (get_project_root s1.cwd project) ".sops.yaml" :=
        age_key_ne_sops_config _ _
      have hread3 := ((hi3 (get_age_key_path s1.cwd project) hq1).1).trans
        ((hc4 (get_age_key_path s1.cwd project) hq2).1)
      rw [hread3, hr]
      simp [hm]
    · -- policy file still present
      have hq3 : pathJoin (get_project_root s1.cwd project) ".sops.yaml" ≠
          get_secrets_path s1.cwd project :=
        Ne.symm (secrets_path_ne_sops_config _ _)
      rw [(hi3 _ hq3).2]
      exact hc3
    · -- secrets file present
      exact hi2
    · -- project dir still recorded
      cases project with
      | none => rfl
      | some p =>
        have hd0 : s1.fs.dirs.contains (get_project_root s1.cwd (some p)) = true := by
          simpa using hdirs
        have hd1 := generate_age_key_contains w.keygen s1 (some p) _ hd0
        have hd2 : (create_sops_config pk
            (generate_age_key w.keygen s1 (some p)).sys (some p)).2.fs.dirs.contains
            (get_project_root s1.cwd (some p)) = true := by
          rw [hc5]
          exact hd1
        exact hi4 _ hd2

theorem setup_establishes_done (w : SetupWorld) (sys : Sys) (project : Option String)
    (hcons : keygenConsistent w.keygen = true)
    (hok : (setup_secrets w sys project).ok = true) :
    ∃ pk, (setup_secrets w sys project).pk = some pk ∧
      setup_done (setup_secrets w sys project).sys project pk = true := by
  rw [setup_secrets_eq] at hok ⊢
  by_cases hdep : check_dependencies w = true
  case neg =>
    have hd : check_dependencies w = false := by simpa using hdep
    rw [hd] at hok
    simp at hok
  rw [if_pos hdep] at hok ⊢
  cases project with
  | none => exact setup_tail_done w _ none hcons hok (by rfl)
  | some p =>
    refine setup_tail_done w _ (some p) hcons hok ?_
    simpa [Sys.mkdir] using
      FS.contains_mkdirF_self sys.fs (get_project_root sys.cwd (some p))

/-- Claim C6: running store/key initialization a second time on the same
scope performs no write at all (the state, including the write log, is
unchanged), reports success, and returns the same public key as the first
run. The hypotheses say: dependencies are present on the second run, the
external key generator writes key material consistent with the identity it
reports (spec §6 contract), and the first run succeeded. -/
theorem setup_secrets_idempotent (w1 w2 : SetupWorld) (sys0 : Sys)
    (project : Option String)
    (hdep2 : check_dependencies w2 = true)
    (hcons : keygenConsistent w1.keygen = true)
    (hok : (setup_secrets w1 sys0 project).ok = true) :
    setup_secrets w2 (setup_secrets w1 sys0 project).sys project =
      ⟨true, (setup_secrets w1 sys0 project).pk,
       (setup_secrets w1 sys0 project).sys⟩ := by
  obtain ⟨pk, hpk, hdone⟩ := setup_establishes_done w1 sys0 project hcons hok
  rw [hpk]
  exact setup_on_done w2 _ project pk hdep2 hdone

/-- Witness for C6 at a concrete scope. -/
theorem setup_secrets_idempotent_witness :
    setup_secrets w2_c6 (setup_secrets w1_c6 sys0_c6 (some "api")).sys (some "api") =
      ⟨true, (setup_secrets w1_c6 sys0_c6 (some "api")).pk,
       (setup_secrets w1_c6 sys0_c6 (some "api")).sys⟩ :=
  setup_secrets_idempotent w1_c6 w2_c6 sys0_c6 (some "api")
    (by decide) (by decide) (by decide)
